import Mathlib

/-!
Verification of the Siphon keeper-node task-execution core
(`apps/keeper-node/src`): the tool executor (`executor.rs`), the agent loop
(`agent_loop.rs`), and the lesson store / retriever / feedback engine
(`db.rs`, `api.rs`).

Modelling conventions:
* Rust `String` / `&str` values are modelled as their UTF-8 character
  sequences, `List Char` (abbreviated `RStr`).  `str::len` (a byte count)
  is `byteLen`, the sum of the UTF-8 sizes of the characters.
* Rust byte-slicing `&s[..k]` panics when `k` is not a character boundary;
  it is modelled by `byteSliceChars`, which returns `none` exactly on the
  panicking inputs.  Functions that can reach such a slice return
  `Option _`, with `none` standing for a panic.
* `f64` arithmetic on scores/confidences is modelled exactly over `ℚ`
  (all constants involved are decimal literals).  The one genuinely
  float-only quantity, the cosine similarity of two embedding vectors
  (which needs `sqrt`), is abstracted as a rational oracle input.
* Filesystem, network, process and clock effects are oracle parameters
  (explicit function arguments), so every definition stays executable.
* Unicode character classes used by `char::is_alphanumeric` and
  `char::is_whitespace` are modelled on the ASCII range (the range all
  concrete inputs in this development use); `to_ascii_lowercase` is
  exactly `Char.toLower`.
-/

/-- Rust string contents: the list of Unicode scalar values. -/
abbrev RStr := List Char

/-- Byte length of a Rust string (`str::len`): total UTF-8 size. -/
def byteLen (s : RStr) : Nat :=
  (s.map Char.utf8Size).sum

/-- Rust byte slice `&s[..k]`: the character prefix occupying exactly `k`
bytes, or `none` (a panic) when `k` is not a character boundary or is out
of range. -/
def byteSliceChars (l : RStr) (k : Nat) : Option RStr :=
  match k, l with
  | 0, _ => some []
  | _ + 1, [] => none
  | _ + 1, c :: cs =>
    if c.utf8Size ≤ k then (byteSliceChars cs (k - c.utf8Size)).map (fun t => c :: t)
    else none

/-- Substring containment, `str::contains` for a literal pattern. -/
def listContainsSub (hay pat : RStr) : Bool :=
  hay.tails.any (fun t => pat.isPrefixOf t)

/-- Split on a character predicate, keeping empty segments
(`str::split(|c| p c)`). -/
def splitP (p : Char → Bool) : RStr → List RStr
  | [] => [[]]
  | c :: cs =>
    let rest := splitP p cs
    if p c then [] :: rest
    else
      match rest with
      | [] => [[c]]
      | r :: rs => (c :: r) :: rs

/-- Rust `str::split_whitespace`: split on whitespace, dropping empty
segments. -/
def splitWhitespaceL (s : RStr) : List RStr :=
  (splitP (fun c => c.isWhitespace) s).filter (fun t => !t.isEmpty)

-- ── Tool executor (`executor.rs`) ────────────────────────────────────

/-- Result of executing a single tool call (`executor::ToolResult`). -/
structure ToolResult where
  tool_call_id : RStr
  tool_name : RStr
  success : Bool
  output : RStr
deriving DecidableEq, Repr

/-- The argument object of a tool call: `serde_json::Value` field lookups
`args["…"].as_str()` / `.as_u64()` modelled as optional fields. -/
structure ToolArgs where
  language : Option RStr := none
  code : Option RStr := none
  url : Option RStr := none
  path : Option RStr := none
  content : Option RStr := none
  command : Option RStr := none
  timeout_secs : Option Nat := none
deriving DecidableEq, Repr

/-- A parsed tool call returned from the LLM (`inference::ToolCall`). -/
structure ToolCall where
  id : RStr
  name : RStr
  arguments : ToolArgs
deriving DecidableEq, Repr

/-- Captured output of a finished child process (`std::process::Output`):
`exit_code = none` models termination by signal, so `status.success()` is
`exit_code = some 0` and `status.code().unwrap_or(-1)` is
`(exit_code).getD (-1)`. -/
structure ProcOut where
  exit_code : Option Int
  stdout : RStr
  stderr : RStr
deriving DecidableEq, Repr

/-- Outcome of `client.get(url).send()` followed by `resp.text()`:
a transport error, a body-read error, or a status plus body. -/
inductive HttpResp where
  | sendErr (e : RStr)
  | readErr (e : RStr)
  | ok (status : Nat) (body : RStr)
deriving DecidableEq, Repr

/-- Oracle bundle for the executor's external effects (filesystem,
network, child processes).  `shell_run t` is the outcome of running the
shell command under `tokio::time::timeout` with `t` seconds: `none` means
the timeout elapsed first. -/
structure ExecEnv where
  fs_read : RStr → Except RStr RStr
  mkdirs : Except RStr Unit
  fs_write : RStr → RStr → Except RStr Unit
  http : RStr → HttpResp
  shell_run : Nat → Option (Except RStr ProcOut)
  eval_write : Except RStr Unit
  eval_run : Except RStr ProcOut

/-- Check that a relative path doesn't escape the workspace
(`executor::is_safe_path`): no `..` substring and no leading `/`. -/
def is_safe_path (path : RStr) : Bool :=
  !listContainsSub path ("..").data && !(path.head? = some '/')

/-- HTTP status range check `StatusCode::is_success` (2xx). -/
def statusIsSuccess (status : Nat) : Bool :=
  200 ≤ status && status ≤ 299

/-- Body truncation step of `execute_http_fetch`: bodies over 50 000
bytes are byte-sliced at 50 000 (a potential panic, hence `Option`) and
suffixed with the truncation marker. -/
def truncateHttpBody (body : RStr) : Option RStr :=
  if byteLen body > 50000 then
    (byteSliceChars body 50000).map (fun t => t ++ ("...\n[truncated at 50KB]").data)
  else some body

/-- The `http_fetch` tool (`executor::execute_http_fetch`).  `none` models
a panic escaping the function. -/
def execute_http_fetch (env : ExecEnv) (args : ToolArgs) : Option (Except RStr RStr) :=
  match args.url with
  | none => some (.error ("Missing 'url' argument").data)
  | some url =>
    if !(("http://").data.isPrefixOf url) && !(("https://").data.isPrefixOf url) then
      some (.error ("URL must start with http:// or https://").data)
    else
      match env.http url with
      | .sendErr e => some (.error (("HTTP request failed: ").data ++ e))
      | .readErr e => some (.error (("Failed to read response: ").data ++ e))
      | .ok status body =>
        match truncateHttpBody body with
        | none => none
        | some truncated =>
          if statusIsSuccess status then some (.ok truncated)
          else some (.error (("HTTP ").data ++ (toString status).data ++ (" — ").data ++ truncated))

/-- The `file_read` tool (`executor::execute_file_read`). -/
def execute_file_read (env : ExecEnv) (args : ToolArgs) : Except RStr RStr :=
  match args.path with
  | none => .error ("Missing 'path' argument").data
  | some path =>
    if !is_safe_path path then .error ("Path traversal not allowed").data
    else
      match env.fs_read path with
      | .ok content => .ok content
      | .error e => .error (("Failed to read file: ").data ++ e)

/-- The `file_write` tool (`executor::execute_file_write`). -/
def execute_file_write (env : ExecEnv) (args : ToolArgs) : Except RStr RStr :=
  match args.path with
  | none => .error ("Missing 'path' argument").data
  | some path =>
    match args.content with
    | none => .error ("Missing 'content' argument").data
    | some content =>
      if !is_safe_path path then .error ("Path traversal not allowed").data
      else
        match env.mkdirs with
        | .error e => .error (("Failed to create directories: ").data ++ e)
        | .ok _ =>
          match env.fs_write path content with
          | .error e => .error (("Failed to write file: ").data ++ e)
          | .ok _ =>
            .ok (("Wrote ").data ++ (toString (byteLen content)).data ++ (" bytes to ").data ++ path)

/-- Effective shell timeout: `timeout_secs` defaulted to 30 and clamped
to at most 120 (`args["timeout_secs"].as_u64().unwrap_or(30).min(120)`). -/
def effectiveShellTimeout (timeout_secs : Option Nat) : Nat :=
  min (timeout_secs.getD 30) 120

/-- Combined stdout/stderr reporting of `execute_shell`. -/
def shellCombined (out : ProcOut) : RStr :=
  if out.stderr.isEmpty then out.stdout
  else out.stdout ++ ("\n[stderr]\n").data ++ out.stderr

/-- The `shell_exec` tool (`executor::execute_shell`). -/
def execute_shell (env : ExecEnv) (args : ToolArgs) : Except RStr RStr :=
  match args.command with
  | none => .error ("Missing 'command' argument").data
  | some command =>
    match splitWhitespaceL command with
    | [] => .error ("Command cannot be empty").data
    | _program :: _argv =>
      let timeout_secs := effectiveShellTimeout args.timeout_secs
      match env.shell_run timeout_secs with
      | none => .error (("Command timed out after ").data ++ (toString timeout_secs).data ++ ("s").data)
      | some (.error e) => .error (("Failed to execute command: ").data ++ e)
      | some (.ok out) =>
        let combined := shellCombined out
        if out.exit_code = some 0 then .ok combined
        else .error (("Exit code ").data ++ (toString (out.exit_code.getD (-1))).data ++ ("\n").data ++ combined)

/-- The `code_eval` tool (`executor::execute_code_eval`). -/
def execute_code_eval (env : ExecEnv) (args : ToolArgs) : Except RStr RStr :=
  match args.language with
  | none => .error ("Missing 'language' argument").data
  | some language =>
    match args.code with
    | none => .error ("Missing 'code' argument").data
    | some _code =>
      if language ≠ ("python").data ∧ language ≠ ("javascript").data then
        .error (("Unsupported language: ").data ++ language)
      else
        match env.eval_write with
        | .error e => .error (("Failed to write script: ").data ++ e)
        | .ok _ =>
          match env.eval_run with
          | .error e => .error (("Failed to execute interpreter: ").data ++ e)
          | .ok out =>
            if out.exit_code = some 0 then .ok out.stdout
            else .error (("Exit code ").data ++ (toString (out.exit_code.getD (-1))).data
              ++ ("\nstdout: ").data ++ out.stdout ++ ("\nstderr: ").data ++ out.stderr)

/-- Execute a tool call within a shard's workspace
(`executor::execute_tool`): dispatch on the tool name and wrap either
outcome in a `ToolResult`.  The outer `Option` is `none` exactly when the
dispatched tool panics (only `http_fetch`'s byte slice can). -/
def execute_tool (env : ExecEnv) (call : ToolCall) : Option ToolResult :=
  let result : Option (Except RStr RStr) :=
    if call.name = ("code_eval").data then some (execute_code_eval env call.arguments)
    else if call.name = ("http_fetch").data then execute_http_fetch env call.arguments
    else if call.name = ("file_read").data then some (execute_file_read env call.arguments)
    else if call.name = ("file_write").data then some (execute_file_write env call.arguments)
    else if call.name = ("shell_exec").data then some (execute_shell env call.arguments)
    else some (.error (("Unknown tool: ").data ++ call.name))
  result.map (fun r =>
    match r with
    | .ok output => { tool_call_id := call.id, tool_name := call.name, success := true, output := output }
    | .error err => { tool_call_id := call.id, tool_name := call.name, success := false, output := err })

-- ── Agent loop (`agent_loop.rs`) ─────────────────────────────────────

/-- A chat message in the running conversation (`inference::ChatMessage`);
`tool_calls` holds the ids/names of the requested calls. -/
structure ChatMessage where
  role : RStr
  content : Option RStr := none
  tool_calls : Option (List ToolCall) := none
  tool_call_id : Option RStr := none
  name : Option RStr := none
deriving DecidableEq, Repr

/-- Text message constructor (`ChatMessage::text`). -/
def ChatMessage.textMsg (role content : RStr) : ChatMessage :=
  { role := role, content := some content }

/-- Tool-result message constructor (`ChatMessage::tool_result`). -/
def ChatMessage.toolResultMsg (tool_call_id name content : RStr) : ChatMessage :=
  { role := ("tool").data, content := some content,
    tool_call_id := some tool_call_id, name := some name }

/-- Assistant message carrying tool-call requests
(`ChatMessage::assistant_tool_calls`). -/
def ChatMessage.assistantToolCalls (calls : List ToolCall) : ChatMessage :=
  { role := ("assistant").data, tool_calls := some calls }

/-- The result of a tool-calling inference (`inference::InferenceResult`). -/
inductive InferenceResult where
  | text (content : RStr)
  | toolCalls (calls : List ToolCall)
deriving DecidableEq, Repr

/-- What one loop turn observes from the gateway under the per-turn
timeout: the timeout elapsing, a gateway error, or an inference result.
This is the oracle input standing for
`tokio::time::timeout(_, generate_with_tools(…)).await`. -/
inductive TurnEvent where
  | timeout
  | inferError (e : RStr)
  | ok (r : InferenceResult)
deriving DecidableEq, Repr

/-- One completed turn (`agent_loop::Turn`). -/
structure Turn where
  turn_number : Nat
  inference_result : InferenceResult
  tool_results : List ToolResult
  duration_ms : Nat
deriving DecidableEq, Repr

/-- Terminal classification of a loop (`agent_loop::StopReason`). -/
inductive StopReason where
  | completed
  | maxTurns
  | turnTimeout
  | inferenceError
deriving DecidableEq, Repr

/-- The loop's terminal value (`agent_loop::AgentLoopResult`). -/
structure AgentLoopResult where
  turns : List Turn
  final_response : Option RStr
  total_tool_calls : Nat
  all_tool_results : List ToolResult
  all_success : Bool
  stop_reason : StopReason
deriving DecidableEq, Repr

/-- Oracle bundle for one agent-loop run: the per-turn gateway event, the
per-call tool result (turn number, call index within the turn, call), and
the per-turn wall-clock duration.  Tool results are given by an oracle
because `execute_tool` is effectful (its `ExecEnv` varies per call). -/
structure LoopEnv where
  gateway : Nat → TurnEvent
  tool : Nat → Nat → ToolCall → ToolResult
  turnDuration : Nat → Nat

/-- Execute the requested calls of one turn sequentially, in order
(the `for call in calls` body of `run_agent_loop`): returns the per-call
results and the tool-result messages appended to the conversation. -/
def runTurnTools (env : LoopEnv) (turn_number : Nat) (calls : List ToolCall) :
    List ToolResult × List ChatMessage :=
  let results := calls.enum.map (fun ic => env.tool turn_number ic.1 ic.2)
  let msgs := (calls.zip results).map
    (fun cr => ChatMessage.toolResultMsg cr.1.id cr.1.name cr.2.output)
  (results, msgs)

/-- The loop body of `run_agent_loop`, structurally recursive on the
number of turns still allowed.  `turn_number` is the ordinal of the next
turn; the accumulators mirror the function's mutable locals.  Each
`break` of the source returns the corresponding `AgentLoopResult`
directly; falling off the loop yields the initial `MaxTurns` reason. -/
def agentLoopGo (env : LoopEnv) : Nat → Nat → List ChatMessage → List Turn →
    List ToolResult → Bool → AgentLoopResult
  | _, 0, _, turns, all_tool_results, all_success =>
    { turns := turns, final_response := none,
      total_tool_calls := all_tool_results.length,
      all_tool_results := all_tool_results, all_success := all_success,
      stop_reason := .maxTurns }
  | turn_number, remaining + 1, conversation, turns, all_tool_results, all_success =>
    match env.gateway turn_number with
    | .timeout =>
      { turns := turns, final_response := none,
        total_tool_calls := all_tool_results.length,
        all_tool_results := all_tool_results, all_success := all_success,
        stop_reason := .turnTimeout }
    | .inferError _ =>
      { turns := turns, final_response := none,
        total_tool_calls := all_tool_results.length,
        all_tool_results := all_tool_results, all_success := all_success,
        stop_reason := .inferenceError }
    | .ok (.text content) =>
      { turns := turns ++
          [Turn.mk turn_number (.text content) [] (env.turnDuration turn_number)],
        final_response := some content,
        total_tool_calls := all_tool_results.length,
        all_tool_results := all_tool_results, all_success := all_success,
        stop_reason := .completed }
    | .ok (.toolCalls calls) =>
      let tr := runTurnTools env turn_number calls
      agentLoopGo env (turn_number + 1) remaining
        (conversation ++ [ChatMessage.assistantToolCalls calls] ++ tr.2)
        (turns ++
          [Turn.mk turn_number (.toolCalls calls) tr.1 (env.turnDuration turn_number)])
        (all_tool_results ++ tr.1)
        (all_success && tr.1.all (fun r => r.success))

/-- Run a multi-turn agent loop (`agent_loop::run_agent_loop`). -/
def run_agent_loop (env : LoopEnv) (initial_message : RStr) (max_turns : Nat) :
    AgentLoopResult :=
  agentLoopGo env 1 max_turns [ChatMessage.textMsg ("user").data initial_message] [] [] true

-- ── Lesson store (`db.rs`): data model and scoring ───────────────────

/-- A persisted task lesson (`db::TaskLesson`). -/
structure TaskLesson where
  id : Int
  shard_id : RStr
  action_id : Int
  task_type : RStr
  goal : RStr
  approach : RStr
  tools_used : List RStr
  outcome : RStr
  errors : List RStr
  fixes : List RStr
  duration_ms : Nat
  success : Bool
  extractor_confidence : ℚ
  applicability_confidence : ℚ
  reusability : ℚ
  score : ℚ
  artifact_path : RStr
  times_retrieved : Nat
  times_helpful : Nat
  times_unhelpful : Nat
  created_at : Nat
  updated_at : Nat
deriving DecidableEq, Repr

/-- Insert payload for a new lesson (`db::NewTaskLesson`). -/
structure NewTaskLesson where
  shard_id : RStr
  action_id : Int
  task_type : RStr
  goal : RStr
  approach : RStr
  tools_used : List RStr
  outcome : RStr
  errors : List RStr
  fixes : List RStr
  duration_ms : Nat
  success : Bool
  extractor_confidence : ℚ
  applicability_confidence : ℚ
  reusability : ℚ
  artifact_path : RStr
deriving DecidableEq, Repr

/-- Clamp to an interval, `f64::clamp`. -/
def clampQ (x lo hi : ℚ) : ℚ :=
  min hi (max lo x)

/-- Initial quality score computed inside `db::insert_task_lesson`. -/
def initialLessonScore (lesson : NewTaskLesson) : ℚ :=
  let success_f : ℚ := if lesson.success then 1.0 else 0.0
  clampQ (0.15 * success_f
    + 0.30 * lesson.extractor_confidence
    + 0.30 * lesson.applicability_confidence
    + 0.25 * lesson.reusability) 0.0 1.0

/-- The row created by `db::insert_task_lesson`: usage counters start at
zero and the quality score is the clamped weighted sum. -/
def insert_task_lesson (lesson : NewTaskLesson) (rowid : Int) (now : Nat) : TaskLesson :=
  { id := rowid
    shard_id := lesson.shard_id
    action_id := lesson.action_id
    task_type := lesson.task_type
    goal := lesson.goal
    approach := lesson.approach
    tools_used := lesson.tools_used
    outcome := lesson.outcome
    errors := lesson.errors
    fixes := lesson.fixes
    duration_ms := lesson.duration_ms
    success := lesson.success
    extractor_confidence := lesson.extractor_confidence
    applicability_confidence := lesson.applicability_confidence
    reusability := lesson.reusability
    score := initialLessonScore lesson
    artifact_path := lesson.artifact_path
    times_retrieved := 0
    times_helpful := 0
    times_unhelpful := 0
    created_at := now
    updated_at := now }

/-- The `SET` clause of `db::apply_lesson_feedback` applied to one row:
bump the usage counters for the verdict and move the score by +0.08 /
−0.05, clamped into [0,1] by `MIN(1.0, MAX(0.0, …))`. -/
def lessonFeedbackUpdate (l : TaskLesson) (helpful : Bool) (now : Nat) : TaskLesson :=
  let delta : ℚ := if helpful then 0.08 else -0.05
  { l with
    times_retrieved := l.times_retrieved + 1
    times_helpful := l.times_helpful + (if helpful then 1 else 0)
    times_unhelpful := l.times_unhelpful + (if helpful then 0 else 1)
    score := min 1.0 (max 0.0 (l.score + delta))
    updated_at := now }

/-- Apply one feedback verdict to every lesson in the retrieval set
(`db::apply_lesson_feedback`): one `UPDATE … WHERE id = ?` per id. -/
def apply_lesson_feedback (rows : List TaskLesson) (lesson_ids : List Int)
    (helpful : Bool) (now : Nat) : List TaskLesson :=
  lesson_ids.foldl
    (fun acc i => acc.map (fun l => if l.id = i then lessonFeedbackUpdate l helpful now else l))
    rows

/-- Historical average duration of successful lessons of one category
(`db::avg_success_duration_by_task_type`).  SQLite's real-valued
`AVG(duration_ms)` truncated by `as u64` is exactly the floor of the
mean, i.e. natural division of the sum by the count; `AVG` over no rows
is `NULL`, giving `none`. -/
def avg_success_duration_by_task_type (rows : List TaskLesson)
    (shard_id task_type : RStr) : Option Nat :=
  let xs := rows.filter
    (fun l => l.shard_id = shard_id ∧ l.task_type = task_type ∧ l.success)
  if xs.isEmpty then none
  else some ((xs.map (fun l => l.duration_ms)).sum / xs.length)

-- ── Retriever / ranker (`db.rs` and `api.rs` lexical helpers) ───────

/-- Lexical tokenizer (`db::tokenize` = `api::tokenize`): split on
non-alphanumeric characters, keep tokens of at least 3 bytes, lowercase
ASCII letters. -/
def tokenize (input : RStr) : List RStr :=
  ((splitP (fun c => !c.isAlphanum) input).filter
    (fun t => decide (byteLen t ≥ 3))).map (fun t => t.map Char.toLower)

/-- Token-set Jaccard similarity (`db::jaccard` =
`api::jaccard_similarity`): 0 when either side is empty, otherwise
`|A ∩ B| / |A ∪ B|` over the de-duplicated token sets. -/
def jaccard (a b : List RStr) : ℚ :=
  if a.isEmpty || b.isEmpty then 0
  else
    let aset := a.toFinset
    let bset := b.toFinset
    let inter : ℚ := ((aset ∩ bset).card : ℚ)
    let union : ℚ := ((aset ∪ bset).card : ℚ)
    if union = 0 then 0 else inter / union

/-- Single-space concatenation, `format!("{} {}", a, b)`. -/
def joinSp (a b : RStr) : RStr :=
  a ++ (' ' :: b)

/-- Near-duplicate test on lessons (`db::near_duplicate`): same category
and goal+approach token Jaccard at least 0.82. -/
def near_duplicate (a b : TaskLesson) : Bool :=
  if a.task_type ≠ b.task_type then false
  else
    let ta := tokenize (joinSp a.goal a.approach)
    let tb := tokenize (joinSp b.goal b.approach)
    decide (jaccard ta tb ≥ 0.82)

/-- Near-duplicate test of the hybrid pass (`api::near_duplicate_lessons`);
verbatim the same computation as `db::near_duplicate`. -/
def near_duplicate_lessons (a b : TaskLesson) : Bool :=
  if a.task_type ≠ b.task_type then false
  else
    let ta := tokenize (joinSp a.goal a.approach)
    let tb := tokenize (joinSp b.goal b.approach)
    decide (jaccard ta tb ≥ 0.82)

/-- Database-pass candidate score (`db::lesson_rank`): lexical Jaccard,
stored quality score, Laplace-smoothed helpfulness rate, recency decay,
and a category bonus. -/
def lesson_rank (lesson : TaskLesson) (query_tokens : List RStr)
    (task_type : RStr) (now_ms : Nat) : ℚ :=
  let corpus := joinSp (joinSp lesson.goal lesson.approach) lesson.outcome
  let lesson_tokens := tokenize corpus
  let lexical := jaccard query_tokens lesson_tokens
  let type_boost : ℚ := if lesson.task_type = task_type then 0.2 else 0.0
  let helpful_rate : ℚ := ((lesson.times_helpful : ℚ) + 1.0)
    / ((lesson.times_retrieved : ℚ) + 2.0)
  let age_days : ℚ := max (((now_ms - lesson.created_at : Nat) : ℚ) / 86400000) 0.0
  let recency : ℚ := 1.0 / (1.0 + age_days / 14.0)
  lexical * 0.45 + lesson.score * 0.30 + helpful_rate * 0.15 + recency * 0.10 + type_boost

/-- Recency window of the lesson table scan
(`ORDER BY created_at DESC LIMIT 300`): stable sort by descending
creation time, then the first 300 rows. -/
def recencyWindow (rows : List TaskLesson) : List TaskLesson :=
  (rows.mergeSort (fun a b => b.created_at ≤ a.created_at)).take 300

/-- The ranked candidate list of `db::retrieve_relevant_lessons`: score
every windowed row, then stable-sort by descending score (`sort_by` with
the reversed comparison). -/
def rankedCandidates (rows : List TaskLesson) (task : RStr) (task_type : RStr)
    (now : Nat) : List (TaskLesson × ℚ) :=
  let query_tokens := tokenize task
  let scored := (recencyWindow rows).map
    (fun l => (l, lesson_rank l query_tokens task_type now))
  scored.mergeSort (fun a b => b.2 ≤ a.2)

/-- First selection pass of `db::retrieve_relevant_lessons`: walk the
ranked list, stop at the target count, stop at the 0.22 quality floor
once 3 are chosen, and skip near-duplicates of already-selected rows. -/
def dbSelectPass (target : Nat) : List TaskLesson → List (TaskLesson × ℚ) → List TaskLesson
  | selected, [] => selected
  | selected, (lesson, rank) :: rest =>
    if selected.length ≥ target then selected
    else if selected.length ≥ 3 ∧ rank < 0.22 then selected
    else if selected.any (fun s => near_duplicate s lesson) then
      dbSelectPass target selected rest
    else dbSelectPass target (selected ++ [lesson]) rest

/-- Fallback fill pass of `db::retrieve_relevant_lessons`: walk the full
ranked list again, without the quality floor, still skipping
near-duplicates, until the target count is reached. -/
def dbFillPass (target : Nat) : List TaskLesson → List (TaskLesson × ℚ) → List TaskLesson
  | selected, [] => selected
  | selected, (lesson, _) :: rest =>
    if selected.length ≥ target then selected
    else if selected.any (fun s => near_duplicate s lesson) then
      dbFillPass target selected rest
    else dbFillPass target (selected ++ [lesson]) rest

/-- Database-level retrieval (`db::retrieve_relevant_lessons`): ranked
greedy selection capped at `min max_lessons 7`, with an unconditional
fallback fill whenever the first pass selected fewer than the target. -/
def retrieve_relevant_lessons (rows : List TaskLesson) (task : RStr)
    (task_type : RStr) (max_lessons : Nat) (now : Nat) : List TaskLesson :=
  let ranked := rankedCandidates rows task task_type now
  let target_max := min max_lessons 7
  let selected := dbSelectPass target_max [] ranked
  if selected.length < target_max then dbFillPass target_max selected ranked
  else selected

/-- Greedy near-duplicate filter over a ranked list: the subsequence of
rows that are not near-duplicates of an earlier kept row.  Its length is
the `d` of the retrieval-count analysis. -/
def greedyDedup : List TaskLesson → List (TaskLesson × ℚ) → List TaskLesson
  | kept, [] => kept
  | kept, (lesson, _) :: rest =>
    if kept.any (fun s => near_duplicate s lesson) then greedyDedup kept rest
    else greedyDedup (kept ++ [lesson]) rest

-- ── Hybrid retrieval (`api.rs`) ──────────────────────────────────────

/-- Hybrid candidate score (`api::hybrid_rank`).  `cosine` abstracts
`cosine_similarity(query_embedding, lesson_embedding)`, whose `f64`
square roots have no exact rational embedding; the source normalizes it
to [0,1] before weighting, which is kept here. -/
def hybrid_rank (lesson : TaskLesson) (query_tokens : List RStr)
    (cosine : ℚ) (task_type : RStr) : ℚ :=
  let semantic := clampQ ((cosine + 1.0) / 2.0) 0.0 1.0
  let lexical := jaccard query_tokens
    (tokenize (joinSp (joinSp lesson.goal lesson.approach) lesson.outcome))
  let type_boost : ℚ := if lesson.task_type = task_type then 0.08 else 0.0
  let helpful_rate : ℚ := ((lesson.times_helpful : ℚ) + 1.0)
    / ((lesson.times_retrieved : ℚ) + 2.0)
  clampQ (semantic * 0.55 + lexical * 0.20 + lesson.score * 0.17
    + helpful_rate * 0.08 + type_boost) 0.0 1.0

/-- Fallback scoring of `api::retrieve_lessons_hybrid` when embeddings
are unavailable or mismatched: keep the prefilter order with a small
per-rank decay, `1.0 - idx * 0.01`. -/
def fallbackScores (candidates : List TaskLesson) : List (TaskLesson × ℚ) :=
  candidates.enum.map (fun il => (il.2, 1.0 - (il.1 : ℚ) * 0.01))

/-- Selection loop of `api::retrieve_lessons_hybrid`: cap at 7, quality
floor 0.18 once 3 are chosen, skip near-duplicates of selected rows. -/
def hybridSelectPass : List TaskLesson → List (TaskLesson × ℚ) → List TaskLesson
  | selected, [] => selected
  | selected, (lesson, score) :: rest =>
    if selected.length ≥ 7 then selected
    else if selected.length ≥ 3 ∧ score < 0.18 then selected
    else if selected.any (fun s => near_duplicate_lessons s lesson) then
      hybridSelectPass selected rest
    else hybridSelectPass (selected ++ [lesson]) rest

/-- Hybrid retrieval (`api::retrieve_lessons_hybrid`).  `semantic` is the
embedding oracle: `some cosines` stands for a successful `embed_texts`
call (one cosine similarity per candidate, already paired with the query
vector); a length mismatch or `none` triggers the lexical fallback, as in
the source's `Ok(_) | Err(_)` arm. -/
def retrieve_lessons_hybrid (candidates : List TaskLesson)
    (semantic : Option (List ℚ)) (task : RStr) (task_type : RStr) : List TaskLesson :=
  if candidates.isEmpty then []
  else
    let query_tokens := tokenize task
    let ranked : List (TaskLesson × ℚ) :=
      match semantic with
      | some cosines =>
        if cosines.length = candidates.length then
          (candidates.zip cosines).map
            (fun lc => (lc.1, hybrid_rank lc.1 query_tokens lc.2 task_type))
        else fallbackScores candidates
      | none => fallbackScores candidates
    let sorted := ranked.mergeSort (fun a b => b.2 ≤ a.2)
    hybridSelectPass [] sorted

-- ── Extractor and feedback (`api.rs` / `db.rs`) ─────────────────────

/-- String shortening (`api::truncate`): inputs over `max` bytes are
byte-sliced at `max` (a potential panic, hence `Option`) and suffixed
with an ellipsis. -/
def truncateR (input : RStr) (max : Nat) : Option RStr :=
  if byteLen input ≤ max then some input
  else (byteSliceChars input max).map (fun t => t ++ ("...").data)

/-- Error-entry formatting of `api::collect_errors`:
`format!("{}: {}", tool_name, truncate(output, 220))`. -/
def errorEntry (r : ToolResult) : Option RStr :=
  (truncateR r.output 220).map (fun t => r.tool_name ++ (": ").data ++ t)

/-- Format each kept failure in order, propagating a panic (`none`). -/
def collectErrorsGo : List ToolResult → Option (List RStr)
  | [] => some []
  | r :: rs =>
    match errorEntry r, collectErrorsGo rs with
    | some m, some l => some (m :: l)
    | _, _ => none

/-- Collect the error summaries of a loop (`api::collect_errors`): the
first 3 failed tool results, each formatted as `tool: truncated output`. -/
def collect_errors (results : List ToolResult) : Option (List RStr) :=
  collectErrorsGo ((results.filter (fun r => !r.success)).take 3)

/-- A lesson-retrieval event row once completed
(`db::lesson_retrieval_events` after `complete_lesson_retrieval_event`). -/
structure RetrievalEventRow where
  id : Int
  success : Bool
  duration_ms : Nat
  latency_delta_ms : Option Int
  helpful : Bool
deriving DecidableEq, Repr

/-- Outcome of the feedback block of `api::run_execution`. -/
structure FeedbackOutcome where
  helpful : Bool
  rows : List TaskLesson
  event : Option RetrievalEventRow
deriving Repr

/-- The post-execution lesson-feedback block of `api::run_execution`
(lines 787–804): insert the freshly distilled lesson, then — when the
retrieval set is non-empty — query the average successful duration of
the category (which now includes the new row), derive the latency delta
and the single helpful/unhelpful verdict, apply it to every retrieved
lesson, and complete the retrieval event with the same verdict. -/
def runFeedbackStep (rows : List TaskLesson) (new_lesson : NewTaskLesson)
    (rowid : Int) (retrieval_ids : List Int) (retrieval_event_id : Option Int)
    (now : Nat) : FeedbackOutcome :=
  let rows1 := rows ++ [insert_task_lesson new_lesson rowid now]
  if retrieval_ids.isEmpty then
    { helpful := false, rows := rows1, event := none }
  else
    let baseline := avg_success_duration_by_task_type rows1
      new_lesson.shard_id new_lesson.task_type
    let latency_delta_ms : Option Int :=
      baseline.map (fun b : Nat => (new_lesson.duration_ms : Int) - (b : Int))
    let helpful := new_lesson.success &&
      ((latency_delta_ms.map (fun d => decide (d ≤ 0))).getD true)
    let rows2 := apply_lesson_feedback rows1 retrieval_ids helpful now
    let event := retrieval_event_id.map (fun e =>
      RetrievalEventRow.mk e new_lesson.success new_lesson.duration_ms
        latency_delta_ms helpful)
    { helpful := helpful, rows := rows2, event := event }

-- ── Concrete fixtures used by witnesses and counterexamples ─────────

/-- A 50 001-byte HTTP body whose byte 50 000 falls inside a two-byte
character: 49 999 ASCII characters followed by `é` (U+00E9). -/
def badBody : RStr := List.replicate 49999 'a' ++ ['é']

/-- Executor oracle whose HTTP fetch returns status 200 with `badBody`. -/
def httpPanicEnv : ExecEnv :=
  { fs_read := fun _ => .error []
    mkdirs := .ok ()
    fs_write := fun _ _ => .ok ()
    http := fun _ => .ok 200 badBody
    shell_run := fun _ => some (.ok (ProcOut.mk (some 0) [] []))
    eval_write := .ok ()
    eval_run := .ok (ProcOut.mk (some 0) [] []) }

/-- An `http_fetch` tool call against a well-formed URL. -/
def httpFetchCall : ToolCall :=
  { id := ("call-1").data, name := ("http_fetch").data,
    arguments := { url := some (("http://example.com").data) } }

/-- Executor oracle whose shell command never finishes inside any
timeout. -/
def wShellEnv : ExecEnv :=
  { fs_read := fun _ => .error []
    mkdirs := .ok ()
    fs_write := fun _ _ => .ok ()
    http := fun _ => .ok 200 []
    shell_run := fun _ => none
    eval_write := .ok ()
    eval_run := .ok (ProcOut.mk (some 0) [] []) }

/-- Shell arguments with an over-limit `timeout_secs` of 300. -/
def wShellArgs : ToolArgs :=
  { command := some (("sleep 999").data), timeout_secs := some 300 }

/-- File arguments with a plain relative path. -/
def wFileArgs : ToolArgs :=
  { path := some (("notes/today.md").data), content := some (("x").data) }

/-- Executor oracle with a trivial successful filesystem. -/
def wFsEnv : ExecEnv :=
  { fs_read := fun _ => .ok (("hello").data)
    mkdirs := .ok ()
    fs_write := fun _ _ => .ok ()
    http := fun _ => .ok 200 []
    shell_run := fun _ => some (.ok (ProcOut.mk (some 0) [] []))
    eval_write := .ok ()
    eval_run := .ok (ProcOut.mk (some 0) [] []) }

/-- A failed shell tool result with a fixed message. -/
def failR : ToolResult :=
  { tool_call_id := ("1").data, tool_name := ("shell_exec").data,
    success := false, output := ("boom").data }

/-- Loop oracle that immediately answers with text. -/
def wLoopEnv : LoopEnv :=
  { gateway := fun _ => .ok (.text (("done").data))
    tool := fun _ _ c => { tool_call_id := c.id, tool_name := c.name, success := true, output := [] }
    turnDuration := fun _ => 0 }

/-- A well-tokenized stored lesson (goal and approach have tokens of at
least 3 bytes, so it is a near-duplicate of itself). -/
def wLesson : TaskLesson :=
  { id := 1, shard_id := ("s").data, action_id := 1,
    task_type := ("debug").data, goal := ("alpha beta").data,
    approach := ("gamma delta").data, tools_used := [("shell_exec").data],
    outcome := ("finished").data, errors := [], fixes := [],
    duration_ms := 1000, success := true,
    extractor_confidence := 1/2, applicability_confidence := 1/2,
    reusability := 1/2, score := 1/2, artifact_path := [],
    times_retrieved := 0, times_helpful := 0, times_unhelpful := 0,
    created_at := 0, updated_at := 0 }

/-- A stored lesson whose goal and approach have no token of 3 or more
bytes, so its goal+approach token set is empty and it is not a
near-duplicate of itself. -/
def xLesson : TaskLesson :=
  { id := 1, shard_id := ("s").data, action_id := 1,
    task_type := ("general").data, goal := ("a").data,
    approach := ("b").data, tools_used := [],
    outcome := ("c").data, errors := [], fixes := [],
    duration_ms := 10, success := true,
    extractor_confidence := 1/2, applicability_confidence := 1/2,
    reusability := 1/2, score := 1/2, artifact_path := [],
    times_retrieved := 0, times_helpful := 0, times_unhelpful := 0,
    created_at := 0, updated_at := 0 }

/-- A freshly distilled lesson payload in the same shard and category as
`wLesson`, faster than its 1000 ms duration. -/
def wNew : NewTaskLesson :=
  { shard_id := ("s").data, action_id := 2,
    task_type := ("debug").data, goal := ("alpha beta").data,
    approach := ("gamma delta").data, tools_used := [("shell_exec").data],
    outcome := ("finished").data, errors := [], fixes := [],
    duration_ms := 900, success := true,
    extractor_confidence := 1/2, applicability_confidence := 1/2,
    reusability := 1/2, artifact_path := [] }

/-- The helpfulness verdict as the specification words it: the execution
succeeded, and either no prior successful same-category baseline exists
or the duration did not exceed it.  (`avg_success_duration_by_task_type`
is evaluated on the rows prior to the new insertion.) -/
def helpfulPerSpec (rows : List TaskLesson) (nl : NewTaskLesson) : Prop :=
  nl.success = true ∧
    (avg_success_duration_by_task_type rows nl.shard_id nl.task_type = none
     ∨ ∃ b, avg_success_duration_by_task_type rows nl.shard_id nl.task_type = some b
         ∧ nl.duration_ms ≤ b)

/-- Near-duplication as the specification words it: equal task category
and token-set Jaccard similarity of the concatenated goal+approach text
of at least 0.82. -/
def nearDupSpec (a b : TaskLesson) : Prop :=
  a.task_type = b.task_type
  ∧ jaccard (tokenize (joinSp a.goal a.approach))
      (tokenize (joinSp b.goal b.approach)) ≥ 0.82

-- ── Helper lemmas ────────────────────────────────────────────────────

/-- Unfolding `byteLen` over a cons cell. -/
theorem byteLen_cons (c : Char) (l : RStr) : byteLen (c :: l) = c.utf8Size + byteLen l := by
  simp [byteLen]

/-- The agent loop's final response is present exactly on the completed
stop reason, for every loop state. -/
theorem agentLoopGo_final_iff (env : LoopEnv) :
    ∀ (remaining turn_number : Nat) (conv : List ChatMessage) (turns : List Turn)
      (res : List ToolResult) (succ : Bool),
      (agentLoopGo env turn_number remaining conv turns res succ).final_response.isSome = true
        ↔ (agentLoopGo env turn_number remaining conv turns res succ).stop_reason = StopReason.completed := by
  intro remaining
  induction remaining with
  | zero =>
    intro tn conv turns res succ
    simp [agentLoopGo]
  | succ n ih =>
    intro tn conv turns res succ
    simp only [agentLoopGo]
    cases hg : env.gateway tn with
    | timeout => simp
    | inferError e => simp
    | ok r =>
      cases r with
      | text c => simp
      | toolCalls calls => exact ih (tn + 1) _ _ _ _

-- ── C7 ───────────────────────────────────────────────────────────────

/-- C7: for every agent-loop execution, the result's `final_response` is
present if and only if its `stop_reason` is `completed`; under
`max_turns`, `turn_timeout` and `inference_error` it is absent. -/
theorem C7_final_response_iff_completed (env : LoopEnv) (initial_message : RStr)
    (max_turns : Nat) :
    (run_agent_loop env initial_message max_turns).final_response.isSome = true
      ↔ (run_agent_loop env initial_message max_turns).stop_reason = StopReason.completed :=
  agentLoopGo_final_iff env max_turns 1 _ [] [] true

/-- Witness for C7 at a concrete loop oracle. -/
theorem C7_final_response_iff_completed_witness :
    (run_agent_loop wLoopEnv (("hi").data) 5).final_response.isSome = true
      ↔ (run_agent_loop wLoopEnv (("hi").data) 5).stop_reason = StopReason.completed :=
  C7_final_response_iff_completed wLoopEnv (("hi").data) 5

-- ── C5 ───────────────────────────────────────────────────────────────

/-- C5: a newly created lesson's initial quality score equals
`0.15·success + 0.30·extractor + 0.30·applicability + 0.25·reusability`
clamped to [0,1]. -/
theorem C5_initial_score (nl : NewTaskLesson) (rowid : Int) (now : Nat) :
    (insert_task_lesson nl rowid now).score
      = min 1 (max 0 (0.15 * (if nl.success then (1 : ℚ) else 0)
          + 0.30 * nl.extractor_confidence
          + 0.30 * nl.applicability_confidence
          + 0.25 * nl.reusability))
    ∧ 0 ≤ (insert_task_lesson nl rowid now).score
    ∧ (insert_task_lesson nl rowid now).score ≤ 1 := by
  have hs : (insert_task_lesson nl rowid now).score
      = min 1 (max 0 (0.15 * (if nl.success then (1 : ℚ) else 0)
          + 0.30 * nl.extractor_confidence
          + 0.30 * nl.applicability_confidence
          + 0.25 * nl.reusability)) := by
    show initialLessonScore nl = _
    simp only [initialLessonScore, clampQ]
    norm_num
  refine ⟨hs, ?_, ?_⟩
  · rw [hs]
    exact le_min (by norm_num) (le_max_left _ _)
  · rw [hs]
    exact min_le_left _ _

-- ── C6 ───────────────────────────────────────────────────────────────

/-- C6: one feedback application moves a lesson's score to
`min 1 (score + 0.08)` on a helpful verdict and `max 0 (score − 0.05)` on
an unhelpful one, and always increments `times_retrieved` by exactly 1. -/
theorem C6_feedback_delta (l : TaskLesson) (now : Nat)
    (h0 : 0 ≤ l.score) (h1 : l.score ≤ 1) :
    (lessonFeedbackUpdate l true now).score = min 1 (l.score + 0.08)
    ∧ (lessonFeedbackUpdate l false now).score = max 0 (l.score - 0.05)
    ∧ (∀ helpful, (lessonFeedbackUpdate l helpful now).times_retrieved
        = l.times_retrieved + 1) := by
  refine ⟨?_, ?_, fun _ => rfl⟩
  · show min 1.0 (max 0.0 (l.score + 0.08)) = min 1 (l.score + 0.08)
    have hmax : max (0.0 : ℚ) (l.score + 0.08) = l.score + 0.08 := by
      rw [max_eq_right]
      have : (0.0 : ℚ) = 0 := by norm_num
      rw [this]
      have h8 : (0 : ℚ) ≤ 0.08 := by norm_num
      exact add_nonneg h0 h8
    rw [hmax]
    norm_num
  · show min 1.0 (max 0.0 (l.score + -0.05)) = max 0 (l.score - 0.05)
    have hle : max (0.0 : ℚ) (l.score + -0.05) ≤ 1.0 := by
      rw [max_le_iff]
      constructor
      · norm_num
      · have : l.score + -0.05 ≤ 1 + -0.05 := by
          exact add_le_add_right h1 _
        calc l.score + -0.05 ≤ 1 + -0.05 := this
          _ ≤ 1.0 := by norm_num
    rw [min_eq_right hle]
    have : l.score + -0.05 = l.score - 0.05 := by ring
    rw [this]
    norm_num

/-- Witness for C6 at a concrete lesson with score 1/2. -/
theorem C6_feedback_delta_witness :
    ((0 : ℚ) ≤ wLesson.score ∧ wLesson.score ≤ 1)
    ∧ ((lessonFeedbackUpdate wLesson true 5).score = min 1 (wLesson.score + 0.08)
      ∧ (lessonFeedbackUpdate wLesson false 5).score = max 0 (wLesson.score - 0.05)
      ∧ (∀ helpful, (lessonFeedbackUpdate wLesson helpful 5).times_retrieved
          = wLesson.times_retrieved + 1)) :=
  ⟨⟨by norm_num [wLesson], by norm_num [wLesson]⟩,
    C6_feedback_delta wLesson 5 (by norm_num [wLesson]) (by norm_num [wLesson])⟩

-- ── C2 ───────────────────────────────────────────────────────────────

/-- Two cons lists with different heads stay different after appending to
the first. -/
theorem cons_append_ne_cons {c d : Char} (h : c ≠ d) (l1 e l2 : RStr) :
    (c :: l1) ++ e ≠ d :: l2 := by
  simp [h]

/-- The safety check fails exactly on paths containing `..` or starting
with `/`. -/
theorem is_safe_path_false_iff (p : RStr) :
    is_safe_path p = false
      ↔ (listContainsSub p (("..").data) = true ∨ p.head? = some '/') := by
  unfold is_safe_path
  cases hA : listContainsSub p (("..").data) <;> by_cases hB : p.head? = some '/' <;>
    simp [hA, hB]

/-- A read error wrapped by `execute_file_read` is never the traversal
message. -/
theorem read_wrap_ne_traversal (e : RStr) :
    (("Failed to read file: ").data ++ e) ≠ ("Path traversal not allowed").data := by
  have h1 : ("Failed to read file: ").data = 'F' :: ("ailed to read file: ").data := rfl
  have h2 : ("Path traversal not allowed").data = 'P' :: ("ath traversal not allowed").data := rfl
  rw [h1, h2]
  exact cons_append_ne_cons (by decide) _ _ _

/-- A directory-creation error wrapped by `execute_file_write` is never
the traversal message. -/
theorem mkdir_wrap_ne_traversal (e : RStr) :
    (("Failed to create directories: ").data ++ e) ≠ ("Path traversal not allowed").data := by
  have h1 : ("Failed to create directories: ").data
      = 'F' :: ("ailed to create directories: ").data := rfl
  have h2 : ("Path traversal not allowed").data = 'P' :: ("ath traversal not allowed").data := rfl
  rw [h1, h2]
  exact cons_append_ne_cons (by decide) _ _ _

/-- A write error wrapped by `execute_file_write` is never the traversal
message. -/
theorem write_wrap_ne_traversal (e : RStr) :
    (("Failed to write file: ").data ++ e) ≠ ("Path traversal not allowed").data := by
  have h1 : ("Failed to write file: ").data = 'F' :: ("ailed to write file: ").data := rfl
  have h2 : ("Path traversal not allowed").data = 'P' :: ("ath traversal not allowed").data := rfl
  rw [h1, h2]
  exact cons_append_ne_cons (by decide) _ _ _

/-- C2: with a path argument present (and, for writes, a content
argument), `file_read` and `file_write` return the traversal error
exactly when the path contains `..` or starts with `/`; on such a path
the outcome is decided before any filesystem oracle is consulted (both
results are oracle-independent); and the plain relative path
`notes/today.md` passes the safety check. -/
theorem C2_traversal_guard (env env2 : ExecEnv) (args : ToolArgs) (p c : RStr)
    (hp : args.path = some p) (hc : args.content = some c) :
    (execute_file_read env args = .error (("Path traversal not allowed").data)
        ↔ (listContainsSub p (("..").data) = true ∨ p.head? = some '/'))
    ∧ (execute_file_write env args = .error (("Path traversal not allowed").data)
        ↔ (listContainsSub p (("..").data) = true ∨ p.head? = some '/'))
    ∧ ((listContainsSub p (("..").data) = true ∨ p.head? = some '/') →
        execute_file_read env args = execute_file_read env2 args
        ∧ execute_file_write env args = execute_file_write env2 args)
    ∧ is_safe_path (("notes/today.md").data) = true := by
  cases hsafe : is_safe_path p with
  | true =>
    have hU : ¬ (listContainsSub p (("..").data) = true ∨ p.head? = some '/') := by
      intro hu
      have := (is_safe_path_false_iff p).mpr hu
      rw [hsafe] at this
      exact Bool.true_eq_false.mp this
    refine ⟨?_, ?_, fun hu => absurd hu hU, by decide⟩
    · simp only [execute_file_read, hp, hsafe, Bool.not_true, Bool.false_eq_true,
        if_false]
      cases henv : env.fs_read p with
      | ok content => simp [hU]
      | error e =>
        simp only [Except.error.injEq]
        exact iff_of_false (read_wrap_ne_traversal e) hU
    · simp only [execute_file_write, hp, hc, hsafe, Bool.not_true, Bool.false_eq_true,
        if_false]
      cases hmk : env.mkdirs with
      | error e =>
        simp only [Except.error.injEq]
        exact iff_of_false (mkdir_wrap_ne_traversal e) hU
      | ok u =>
        cases hw : env.fs_write p c with
        | error e =>
          simp only [Except.error.injEq]
          exact iff_of_false (write_wrap_ne_traversal e) hU
        | ok u2 =>
          refine iff_of_false ?_ hU
          intro hbad
          simp at hbad
  | false =>
    have hU : (listContainsSub p (("..").data) = true ∨ p.head? = some '/') :=
      (is_safe_path_false_iff p).mp hsafe
    refine ⟨?_, ?_, ?_, by decide⟩
    · simp [execute_file_read, hp, hsafe, hU]
    · simp [execute_file_write, hp, hc, hsafe, hU]
    · intro _
      constructor
      · simp [execute_file_read, hp, hsafe]
      · simp [execute_file_write, hp, hc, hsafe]

/-- Witness for C2: a present relative path and content. -/
theorem C2_traversal_guard_witness :
    (wFileArgs.path = some (("notes/today.md").data)
      ∧ wFileArgs.content = some (("x").data))
    ∧ ((execute_file_read wFsEnv wFileArgs = .error (("Path traversal not allowed").data)
        ↔ (listContainsSub (("notes/today.md").data) (("..").data) = true
            ∨ (("notes/today.md").data).head? = some '/'))
      ∧ (execute_file_write wFsEnv wFileArgs = .error (("Path traversal not allowed").data)
        ↔ (listContainsSub (("notes/today.md").data) (("..").data) = true
            ∨ (("notes/today.md").data).head? = some '/'))
      ∧ ((listContainsSub (("notes/today.md").data) (("..").data) = true
            ∨ (("notes/today.md").data).head? = some '/') →
          execute_file_read wFsEnv wFileArgs = execute_file_read httpPanicEnv wFileArgs
          ∧ execute_file_write wFsEnv wFileArgs = execute_file_write httpPanicEnv wFileArgs)
      ∧ is_safe_path (("notes/today.md").data) = true) :=
  ⟨⟨rfl, rfl⟩,
    C2_traversal_guard wFsEnv httpPanicEnv wFileArgs (("notes/today.md").data)
      (("x").data) rfl rfl⟩

-- ── C8 ───────────────────────────────────────────────────────────────

/-- C8: the effective shell timeout is `timeout_secs` clamped to at most
120 seconds (30 when absent), and a command that outlives that timeout
fails with the timeout-specific message naming the effective timeout — a
message distinct from the generic execution error. -/
theorem C8_shell_timeout (env : ExecEnv) (args : ToolArgs) (cmd : RStr)
    (hc : args.command = some cmd) (hne : splitWhitespaceL cmd ≠ [])
    (ht : env.shell_run (effectiveShellTimeout args.timeout_secs) = none) :
    execute_shell env args
      = .error (("Command timed out after ").data
          ++ (toString (effectiveShellTimeout args.timeout_secs)).data ++ ("s").data)
    ∧ effectiveShellTimeout none = 30
    ∧ (∀ t, effectiveShellTimeout (some t) = min t 120)
    ∧ (∀ e, (("Command timed out after ").data
          ++ (toString (effectiveShellTimeout args.timeout_secs)).data ++ ("s").data)
        ≠ (("Failed to execute command: ").data ++ e)) := by
  refine ⟨?_, by decide, fun t => rfl, ?_⟩
  · simp only [execute_shell, hc]
    cases hsp : splitWhitespaceL cmd with
    | nil => exact absurd hsp hne
    | cons program argv =>
      simp only [ht]
  · intro e
    have h1 : ("Command timed out after ").data
        = 'C' :: ("ommand timed out after ").data := rfl
    have h2 : ("Failed to execute command: ").data
        = 'F' :: ("ailed to execute command: ").data := rfl
    rw [h1, h2]
    intro hbad
    simp at hbad

/-- Witness for C8: `timeout_secs = 300` clamps to 120 and the timeout
message names 120. -/
theorem C8_shell_timeout_witness :
    (wShellArgs.command = some (("sleep 999").data)
      ∧ splitWhitespaceL (("sleep 999").data) ≠ []
      ∧ wShellEnv.shell_run (effectiveShellTimeout wShellArgs.timeout_secs) = none)
    ∧ execute_shell wShellEnv wShellArgs
        = .error (("Command timed out after ").data
            ++ (toString (effectiveShellTimeout wShellArgs.timeout_secs)).data ++ ("s").data) :=
  ⟨⟨rfl, by decide, rfl⟩,
    (C8_shell_timeout wShellEnv wShellArgs (("sleep 999").data) rfl (by decide) rfl).1⟩

-- ── C9 ───────────────────────────────────────────────────────────────

/-- Counterexample for C9: two identical tool failures produce two equal
error entries, so the extracted errors are not pairwise distinct. -/
theorem C9_counterexample :
    collect_errors [failR, failR]
      = some [("shell_exec: boom").data, ("shell_exec: boom").data]
    ∧ ¬ (List.Pairwise (fun a b => a ≠ b)
        [("shell_exec: boom").data, ("shell_exec: boom").data]) := by
  constructor
  · rfl
  · intro hp
    have := List.rel_of_pairwise_cons hp (List.mem_singleton.mpr rfl)
    exact this rfl

/-- Formatting a prefix of failures succeeds with one entry per failure,
each of which is the entry of a member. -/
theorem collectErrorsGo_spec : ∀ (xs : List ToolResult) (l : List RStr),
    collectErrorsGo xs = some l →
    l.length = xs.length ∧ ∀ e ∈ l, ∃ r ∈ xs, errorEntry r = some e := by
  intro xs
  induction xs with
  | nil =>
    intro l h
    simp only [collectErrorsGo, Option.some.injEq] at h
    subst h
    simp
  | cons r rs ih =>
    intro l h
    simp only [collectErrorsGo] at h
    cases he : errorEntry r with
    | none => rw [he] at h; simp at h
    | some m =>
      cases hg : collectErrorsGo rs with
      | none => rw [he, hg] at h; simp at h
      | some l2 =>
        rw [he, hg] at h
        simp only [Option.some.injEq] at h
        subst h
        obtain ⟨hlen, hmem⟩ := ih l2 hg
        refine ⟨by simp [hlen], ?_⟩
        intro e hee
        rcases List.mem_cons.mp hee with hhead | htail
        · subst hhead
          exact ⟨r, List.mem_cons_self r rs, he⟩
        · obtain ⟨r2, hr2, her2⟩ := hmem e htail
          exact ⟨r2, List.mem_cons_of_mem r hr2, her2⟩

/-- Formatting a prefix of failures pairs each kept failure, in order,
with its formatted entry. -/
theorem collectErrorsGo_forall₂ : ∀ (xs : List ToolResult) (l : List RStr),
    collectErrorsGo xs = some l →
    List.Forall₂ (fun r e => errorEntry r = some e) xs l := by
  intro xs
  induction xs with
  | nil =>
    intro l h
    simp only [collectErrorsGo, Option.some.injEq] at h
    subst h
    exact List.Forall₂.nil
  | cons r rs ih =>
    intro l h
    simp only [collectErrorsGo] at h
    cases he : errorEntry r with
    | none => rw [he] at h; simp at h
    | some m =>
      cases hg : collectErrorsGo rs with
      | none => rw [he, hg] at h; simp at h
      | some l2 =>
        rw [he, hg] at h
        simp only [Option.some.injEq] at h
        subst h
        exact List.Forall₂.cons he (ih l2 hg)

/-- C9 (amended): the extracted errors list has at most 3 entries and is
exactly the first at-most-3 failed tool results of the loop paired, in
order, with their formatted messages (tool name plus truncated output);
in particular every entry is the message of a failed result, but entries
are not necessarily pairwise distinct. -/
theorem C9_collect_errors_amended (results : List ToolResult) (l : List RStr)
    (h : collect_errors results = some l) :
    l.length ≤ 3
    ∧ List.Forall₂ (fun r e => errorEntry r = some e)
        ((results.filter (fun r => !r.success)).take 3) l
    ∧ ∀ e ∈ l, ∃ r, r ∈ results ∧ r.success = false ∧ errorEntry r = some e := by
  obtain ⟨hlen, hmem⟩ := collectErrorsGo_spec _ l h
  refine ⟨?_, collectErrorsGo_forall₂ _ l h, ?_⟩
  · rw [hlen]
    exact List.length_take_le 3 _
  · intro e he
    obtain ⟨r, hr, hee⟩ := hmem e he
    have hr2 : r ∈ (results.filter (fun r => !r.success)) := List.mem_of_mem_take hr
    have hfl := List.mem_filter.mp hr2
    refine ⟨r, hfl.1, ?_, hee⟩
    simpa using hfl.2

/-- Witness for C9's amended statement at a single concrete failure. -/
theorem C9_collect_errors_amended_witness :
    (collect_errors [failR] = some [("shell_exec: boom").data])
    ∧ (([("shell_exec: boom").data] : List RStr).length ≤ 3
      ∧ List.Forall₂ (fun r e => errorEntry r = some e)
          (([failR].filter (fun r => !r.success)).take 3)
          [("shell_exec: boom").data]
      ∧ ∀ e ∈ [("shell_exec: boom").data],
          ∃ r, r ∈ [failR] ∧ r.success = false ∧ errorEntry r = some e) :=
  ⟨rfl, C9_collect_errors_amended [failR] _ rfl⟩

-- ── C1 ───────────────────────────────────────────────────────────────

/-- Byte length of an ASCII-`a` run followed by a tail. -/
theorem byteLen_replicate_a (n : Nat) (cs : RStr) :
    byteLen (List.replicate n 'a' ++ cs) = n + byteLen cs := by
  induction n with
  | zero => simp
  | succ m ih =>
    rw [List.replicate_succ, List.cons_append, byteLen_cons, ih]
    have h1 : Char.utf8Size 'a' = 1 := by decide
    rw [h1]
    omega

/-- Byte-slicing past an ASCII-`a` run consumes one byte per character. -/
theorem byteSlice_replicate_a (n : Nat) : ∀ (k : Nat) (cs : RStr),
    byteSliceChars (List.replicate n 'a' ++ cs) (n + (k + 1))
      = (byteSliceChars cs (k + 1)).map (fun t => List.replicate n 'a' ++ t) := by
  induction n with
  | zero =>
    intro k cs
    simp only [List.replicate_zero, List.nil_append, Nat.zero_add]
    cases byteSliceChars cs (k + 1) <;> simp
  | succ m ih =>
    intro k cs
    rw [List.replicate_succ, List.cons_append]
    have hb : m + 1 + (k + 1) = (m + (k + 1)) + 1 := by omega
    rw [hb]
    have h1 : Char.utf8Size 'a' = 1 := by decide
    simp only [byteSliceChars, h1]
    have hcond : 1 ≤ (m + (k + 1)) + 1 := by omega
    rw [if_pos hcond]
    have hsub : (m + (k + 1)) + 1 - 1 = m + (k + 1) := by omega
    rw [hsub, ih k cs]
    cases byteSliceChars cs (k + 1) <;> simp [List.replicate_succ]

/-- The 50 001-byte body's byte length. -/
theorem byteLen_badBody : byteLen badBody = 50001 := by
  simp only [badBody]
  rw [byteLen_replicate_a]
  have h2 : byteLen ['é'] = 2 := by decide
  rw [h2]

/-- Byte 50 000 of `badBody` is not a character boundary, so the slice
panics. -/
theorem byteSlice_badBody : byteSliceChars badBody 50000 = none := by
  simp only [badBody]
  have h5 : (50000 : Nat) = 49999 + (0 + 1) := by norm_num
  rw [h5, byteSlice_replicate_a]
  have h6 : byteSliceChars ['é'] (0 + 1) = none := by decide
  rw [h6]
  rfl

/-- The truncation step of `execute_http_fetch` panics on `badBody`. -/
theorem truncateHttpBody_badBody : truncateHttpBody badBody = none := by
  simp only [truncateHttpBody, byteLen_badBody]
  rw [if_pos (by norm_num : (50001 : Nat) > 50000)]
  rw [byteSlice_badBody]
  rfl

/-- C1 (failing evaluation): an `http_fetch` call whose 200-status
response body is longer than 50 000 bytes with a multi-byte character
straddling byte 50 000 makes `execute_tool` panic (`&body[..50_000]` is
not on a character boundary) instead of returning a `ToolResult`. -/
theorem C1_http_fetch_panics : execute_tool httpPanicEnv httpFetchCall = none := by
  have hgen : ∀ (env : ExecEnv) (url b : RStr),
      ("http://").data.isPrefixOf url = true →
      env.http url = .ok 200 b →
      truncateHttpBody b = none →
      execute_http_fetch env { url := some url } = none := by
    intro env url b hurl henv hb
    simp only [execute_http_fetch]
    have hcond : (!(("http://").data.isPrefixOf url)
        && !(("https://").data.isPrefixOf url)) = false := by
      rw [hurl]
      rfl
    rw [hcond]
    simp only [Bool.false_eq_true, if_false]
    rw [henv]
    simp only [hb]
  have hfetch : execute_http_fetch httpPanicEnv httpFetchCall.arguments = none :=
    hgen httpPanicEnv (("http://example.com").data) badBody (by decide) rfl
      truncateHttpBody_badBody
  simp only [execute_tool]
  rw [if_neg (by decide : ¬ httpFetchCall.name = ("code_eval").data)]
  rw [if_pos (by decide : httpFetchCall.name = ("http_fetch").data)]
  rw [hfetch]
  rfl

-- ── C4 ───────────────────────────────────────────────────────────────

/-- The helpfulness verdict computed by the code — comparing the task's
duration against the successful-duration average *after* the new lesson
was inserted — coincides with the specification's verdict against the
prior-only baseline: including the current duration in the average does
not change the comparison's outcome. -/
theorem helpful_code_iff_spec (rows : List TaskLesson) (nl : NewTaskLesson)
    (rowid : Int) (now : Nat) :
    ((nl.success &&
      ((((avg_success_duration_by_task_type (rows ++ [insert_task_lesson nl rowid now])
            nl.shard_id nl.task_type).map
          (fun b : Nat => (nl.duration_ms : Int) - (b : Int))).map
            (fun d => decide (d ≤ 0))).getD true)) = true)
    ↔ helpfulPerSpec rows nl := by
  cases hs : nl.success with
  | false =>
    simp only [Bool.false_and, Bool.false_eq_true, false_iff]
    intro hspec
    unfold helpfulPerSpec at hspec
    rw [hs] at hspec
    exact Bool.false_ne_true hspec.1
  | true =>
    simp only [Bool.true_and]
    have hfilter : (rows ++ [insert_task_lesson nl rowid now]).filter
        (fun l => decide (l.shard_id = nl.shard_id ∧ l.task_type = nl.task_type ∧ l.success = true))
        = rows.filter
            (fun l => decide (l.shard_id = nl.shard_id ∧ l.task_type = nl.task_type ∧ l.success = true))
          ++ [insert_task_lesson nl rowid now] := by
      rw [List.filter_append]
      congr 1
      simp [insert_task_lesson, hs]
    unfold avg_success_duration_by_task_type helpfulPerSpec
    rw [hfilter]
    set xs := rows.filter
      (fun l => decide (l.shard_id = nl.shard_id ∧ l.task_type = nl.task_type ∧ l.success = true))
      with hxs
    set S := (xs.map (fun l => l.duration_ms)).sum with hS
    set n := xs.length with hn
    set d := nl.duration_ms with hd
    have hsum1 : ((xs ++ [insert_task_lesson nl rowid now]).map (fun l => l.duration_ms)).sum
        = S + d := by
      simp [insert_task_lesson]
    have hlen1 : (xs ++ [insert_task_lesson nl rowid now]).length = n + 1 := by
      simp
    have hne1 : (xs ++ [insert_task_lesson nl rowid now]).isEmpty = false := by
      simp
    simp only [hne1, hsum1, hlen1, Bool.false_eq_true, if_false, Option.map_some',
      Option.getD_some]
    have hcode : (decide (((d : Int) - (((S + d) / (n + 1) : Nat) : Int)) ≤ 0) = true)
        ↔ d * n ≤ S := by
      rw [decide_eq_true_iff]
      have h1 : ∀ q : Nat, (((d : Int) - (q : Int) ≤ 0) ↔ d ≤ q) := by
        intro q
        omega
      rw [h1, Nat.le_div_iff_mul_le (Nat.succ_pos n), Nat.mul_succ]
      omega
    rw [hcode]
    have havg : avg_success_duration_by_task_type rows nl.shard_id nl.task_type
        = if xs.isEmpty = true then none else some (S / n) := rfl
    rw [havg]
    cases hxe : xs.isEmpty with
    | true =>
      have hxs0 : xs = [] := List.isEmpty_iff.mp hxe
      simp only [if_true]
      constructor
      · intro _
        exact ⟨hs, Or.inl trivial⟩
      · intro _
        have hn0 : n = 0 := by rw [hn, hxs0]; rfl
        have hS0 : S = 0 := by rw [hS, hxs0]; rfl
        rw [hn0, hS0]
        simp
    | false =>
      have hnpos : 0 < n := by
        rw [hn]
        cases hxs2 : xs with
        | nil => rw [hxs2] at hxe; simp at hxe
        | cons a t => simp [hxs2]
      simp only [Bool.false_eq_true, if_false]
      have hprior : (d ≤ S / n) ↔ d * n ≤ S := Nat.le_div_iff_mul_le hnpos
      constructor
      · intro h
        exact ⟨hs, Or.inr ⟨S / n, rfl, hprior.mpr h⟩⟩
      · rintro ⟨-, hcase⟩
        rcases hcase with hnone | ⟨b, hb, hle⟩
        · exact absurd hnone (by simp)
        · have hb2 : b = S / n := by
            injection hb with hb3
            exact hb3.symm
          rw [hb2] at hle
          exact hprior.mp hle

/-- C4: whenever at least one lesson was retrieved, the feedback step's
verdict is helpful iff the execution succeeded and its duration did not
exceed the prior average successful duration of the category (or no such
baseline exists); the one verdict is applied to every retrieved lesson
and recorded in the retrieval event. -/
theorem C4_feedback_verdict (rows : List TaskLesson) (nl : NewTaskLesson)
    (rowid : Int) (ids : List Int) (event_id : Option Int) (now : Nat)
    (hne : ids ≠ []) :
    ((runFeedbackStep rows nl rowid ids event_id now).helpful = true
        ↔ helpfulPerSpec rows nl)
    ∧ (runFeedbackStep rows nl rowid ids event_id now).rows
        = apply_lesson_feedback (rows ++ [insert_task_lesson nl rowid now]) ids
            (runFeedbackStep rows nl rowid ids event_id now).helpful now
    ∧ (∀ ev, (runFeedbackStep rows nl rowid ids event_id now).event = some ev →
        ev.helpful = (runFeedbackStep rows nl rowid ids event_id now).helpful
        ∧ ev.success = nl.success ∧ ev.duration_ms = nl.duration_ms) := by
  have hni : ids.isEmpty = false := by
    cases ids with
    | nil => exact absurd rfl hne
    | cons a t => rfl
  refine ⟨?_, ?_, ?_⟩
  · simp only [runFeedbackStep, hni, Bool.false_eq_true, if_false]
    exact helpful_code_iff_spec rows nl rowid now
  · simp only [runFeedbackStep, hni, Bool.false_eq_true, if_false]
  · intro ev hev
    simp only [runFeedbackStep, hni, Bool.false_eq_true, if_false] at hev
    cases event_id with
    | none => simp at hev
    | some e =>
      simp only [Option.map_some', Option.some.injEq] at hev
      subst hev
      simp only [runFeedbackStep, hni, Bool.false_eq_true, if_false]
      refine ⟨?_, ?_, ?_⟩ <;> trivial

/-- Witness for C4: one prior successful `debug` lesson of 1000 ms and a
new successful 900 ms execution that retrieved it. -/
theorem C4_feedback_verdict_witness :
    (([1] : List Int) ≠ [])
    ∧ ((runFeedbackStep [wLesson] wNew 2 [1] (some 7) 50).helpful = true
        ↔ helpfulPerSpec [wLesson] wNew) :=
  ⟨by decide, (C4_feedback_verdict [wLesson] wNew 2 [1] (some 7) 50 (by decide)).1⟩

-- ── C3 ───────────────────────────────────────────────────────────────

/-- Jaccard similarity is symmetric. -/
theorem jaccard_comm (a b : List RStr) : jaccard a b = jaccard b a := by
  simp only [jaccard]
  rw [Bool.or_comm]
  by_cases h : (b.isEmpty || a.isEmpty) = true
  · rw [if_pos h, if_pos h]
  · rw [if_neg h, if_neg h]
    rw [Finset.inter_comm, Finset.union_comm]

/-- The two near-duplicate tests are the same function. -/
theorem near_duplicate_lessons_eq (a b : TaskLesson) :
    near_duplicate_lessons a b = near_duplicate a b := rfl

/-- Near-duplicate testing is symmetric. -/
theorem near_duplicate_symm (a b : TaskLesson) :
    near_duplicate a b = near_duplicate b a := by
  unfold near_duplicate
  by_cases h : a.task_type = b.task_type
  · rw [if_neg (not_not_intro h), if_neg (not_not_intro h.symm)]
    show decide (jaccard (tokenize (joinSp a.goal a.approach))
        (tokenize (joinSp b.goal b.approach)) ≥ 0.82)
      = decide (jaccard (tokenize (joinSp b.goal b.approach))
        (tokenize (joinSp a.goal a.approach)) ≥ 0.82)
    rw [jaccard_comm]
  · rw [if_pos h, if_pos (fun e => h e.symm)]

/-- The near-duplicate test decides exactly the claim's predicate:
equal category and goal+approach token Jaccard at least 0.82. -/
theorem near_duplicate_lessons_false_iff (a b : TaskLesson) :
    near_duplicate_lessons a b = false ↔ ¬ nearDupSpec a b := by
  unfold near_duplicate_lessons nearDupSpec
  by_cases h : a.task_type = b.task_type
  · rw [if_neg (not_not_intro h)]
    show decide (jaccard (tokenize (joinSp a.goal a.approach))
        (tokenize (joinSp b.goal b.approach)) ≥ 0.82) = false ↔ _
    rw [decide_eq_false_iff_not]
    simp [h]
  · rw [if_pos h]
    exact iff_of_true rfl (fun hc => h hc.1)

/-- The hybrid selection loop never grows past 7 entries. -/
theorem hybridSelectPass_length : ∀ (rest : List (TaskLesson × ℚ)) (sel : List TaskLesson),
    sel.length ≤ 7 → (hybridSelectPass sel rest).length ≤ 7 := by
  intro rest
  induction rest with
  | nil =>
    intro sel h
    exact h
  | cons p rest ih =>
    intro sel h
    rcases p with ⟨lesson, score⟩
    simp only [hybridSelectPass]
    by_cases h7 : sel.length ≥ 7
    · rw [if_pos h7]
      exact h
    · rw [if_neg h7]
      by_cases hf : sel.length ≥ 3 ∧ score < 0.18
      · rw [if_pos hf]
        exact h
      · rw [if_neg hf]
        by_cases hd : sel.any (fun s => near_duplicate_lessons s lesson) = true
        · rw [if_pos hd]
          exact ih sel h
        · rw [if_neg hd]
          refine ih _ ?_
          simp only [List.length_append, List.length_singleton]
          omega

/-- The hybrid selection loop preserves pairwise non-near-duplication. -/
theorem hybridSelectPass_pairwise : ∀ (rest : List (TaskLesson × ℚ)) (sel : List TaskLesson),
    sel.Pairwise (fun a b => near_duplicate_lessons a b = false) →
    (hybridSelectPass sel rest).Pairwise (fun a b => near_duplicate_lessons a b = false) := by
  intro rest
  induction rest with
  | nil =>
    intro sel h
    exact h
  | cons p rest ih =>
    intro sel h
    rcases p with ⟨lesson, score⟩
    simp only [hybridSelectPass]
    by_cases h7 : sel.length ≥ 7
    · rw [if_pos h7]
      exact h
    · rw [if_neg h7]
      by_cases hf : sel.length ≥ 3 ∧ score < 0.18
      · rw [if_pos hf]
        exact h
      · rw [if_neg hf]
        by_cases hd : sel.any (fun s => near_duplicate_lessons s lesson) = true
        · rw [if_pos hd]
          exact ih sel h
        · rw [if_neg hd]
          refine ih _ ?_
          rw [List.pairwise_append]
          refine ⟨h, List.pairwise_singleton _ _, ?_⟩
          intro a ha b hb
          rw [List.mem_singleton.mp hb]
          rw [List.any_eq_true] at hd
          push_neg at hd
          exact Bool.not_eq_true _ ▸ (by simpa using hd a ha)

/-- The first db selection pass never grows past the target count. -/
theorem dbSelectPass_length (target : Nat) : ∀ (rest : List (TaskLesson × ℚ))
    (sel : List TaskLesson), sel.length ≤ target →
    (dbSelectPass target sel rest).length ≤ target := by
  intro rest
  induction rest with
  | nil =>
    intro sel h
    exact h
  | cons p rest ih =>
    intro sel h
    rcases p with ⟨lesson, r⟩
    simp only [dbSelectPass]
    by_cases h1 : sel.length ≥ target
    · rw [if_pos h1]
      exact h
    · rw [if_neg h1]
      by_cases h2 : sel.length ≥ 3 ∧ r < 0.22
      · rw [if_pos h2]
        exact h
      · rw [if_neg h2]
        by_cases hd : sel.any (fun s => near_duplicate s lesson) = true
        · rw [if_pos hd]
          exact ih sel h
        · rw [if_neg hd]
          refine ih _ ?_
          simp only [List.length_append, List.length_singleton]
          omega

/-- The fallback fill pass never grows past the target count. -/
theorem dbFillPass_length (target : Nat) : ∀ (rest : List (TaskLesson × ℚ))
    (sel : List TaskLesson), sel.length ≤ target →
    (dbFillPass target sel rest).length ≤ target := by
  intro rest
  induction rest with
  | nil =>
    intro sel h
    exact h
  | cons p rest ih =>
    intro sel h
    rcases p with ⟨lesson, r⟩
    simp only [dbFillPass]
    by_cases h1 : sel.length ≥ target
    · rw [if_pos h1]
      exact h
    · rw [if_neg h1]
      by_cases hd : sel.any (fun s => near_duplicate s lesson) = true
      · rw [if_pos hd]
        exact ih sel h
      · rw [if_neg hd]
        refine ih _ ?_
        simp only [List.length_append, List.length_singleton]
        omega

/-- The first db selection pass preserves pairwise non-near-duplication. -/
theorem dbSelectPass_pairwise (target : Nat) : ∀ (rest : List (TaskLesson × ℚ))
    (sel : List TaskLesson),
    sel.Pairwise (fun a b => near_duplicate a b = false) →
    (dbSelectPass target sel rest).Pairwise (fun a b => near_duplicate a b = false) := by
  intro rest
  induction rest with
  | nil =>
    intro sel h
    exact h
  | cons p rest ih =>
    intro sel h
    rcases p with ⟨lesson, r⟩
    simp only [dbSelectPass]
    by_cases h1 : sel.length ≥ target
    · rw [if_pos h1]
      exact h
    · rw [if_neg h1]
      by_cases h2 : sel.length ≥ 3 ∧ r < 0.22
      · rw [if_pos h2]
        exact h
      · rw [if_neg h2]
        by_cases hd : sel.any (fun s => near_duplicate s lesson) = true
        · rw [if_pos hd]
          exact ih sel h
        · rw [if_neg hd]
          refine ih _ ?_
          rw [List.pairwise_append]
          refine ⟨h, List.pairwise_singleton _ _, ?_⟩
          intro a ha b hb
          rw [List.mem_singleton.mp hb]
          rw [List.any_eq_true] at hd
          push_neg at hd
          exact Bool.not_eq_true _ ▸ (by simpa using hd a ha)

/-- The fallback fill pass preserves pairwise non-near-duplication. -/
theorem dbFillPass_pairwise (target : Nat) : ∀ (rest : List (TaskLesson × ℚ))
    (sel : List TaskLesson),
    sel.Pairwise (fun a b => near_duplicate a b = false) →
    (dbFillPass target sel rest).Pairwise (fun a b => near_duplicate a b = false) := by
  intro rest
  induction rest with
  | nil =>
    intro sel h
    exact h
  | cons p rest ih =>
    intro sel h
    rcases p with ⟨lesson, r⟩
    simp only [dbFillPass]
    by_cases h1 : sel.length ≥ target
    · rw [if_pos h1]
      exact h
    · rw [if_neg h1]
      by_cases hd : sel.any (fun s => near_duplicate s lesson) = true
      · rw [if_pos hd]
        exact ih sel h
      · rw [if_neg hd]
        refine ih _ ?_
        rw [List.pairwise_append]
        refine ⟨h, List.pairwise_singleton _ _, ?_⟩
        intro a ha b hb
        rw [List.mem_singleton.mp hb]
        rw [List.any_eq_true] at hd
        push_neg at hd
        exact Bool.not_eq_true _ ▸ (by simpa using hd a ha)

/-- C3: retrieval returns at most 7 lessons, no two of which are
near-duplicates of each other (equal category with goal+approach token
Jaccard at least 0.82) — both for the hybrid pass, over every candidate
corpus and embedding outcome, and for the database-level pass, over
every stored corpus. -/
theorem C3_retrieval_bounded (candidates : List TaskLesson)
    (semantic : Option (List ℚ)) (task task_type : RStr)
    (rows : List TaskLesson) (max_lessons now : Nat) :
    ((retrieve_lessons_hybrid candidates semantic task task_type).length ≤ 7
      ∧ (retrieve_lessons_hybrid candidates semantic task task_type).Pairwise
          (fun a b => ¬ nearDupSpec a b ∧ ¬ nearDupSpec b a))
    ∧ ((retrieve_relevant_lessons rows task task_type max_lessons now).length ≤ 7
      ∧ (retrieve_relevant_lessons rows task task_type max_lessons now).Pairwise
          (fun a b => ¬ nearDupSpec a b ∧ ¬ nearDupSpec b a)) := by
  have hconv : ∀ (a b : TaskLesson), near_duplicate a b = false →
      ¬ nearDupSpec a b ∧ ¬ nearDupSpec b a := by
    intro a b hab
    refine ⟨(near_duplicate_lessons_false_iff a b).mp hab, ?_⟩
    refine (near_duplicate_lessons_false_iff b a).mp ?_
    rw [near_duplicate_lessons_eq, near_duplicate_symm, ← near_duplicate_lessons_eq]
    exact hab
  constructor
  · simp only [retrieve_lessons_hybrid]
    by_cases hc : candidates.isEmpty = true
    · rw [if_pos hc]
      simp
    · rw [if_neg hc]
      constructor
      · exact hybridSelectPass_length _ _ (by simp)
      · refine List.Pairwise.imp ?_ (hybridSelectPass_pairwise _ _ List.Pairwise.nil)
        intro a b hab
        exact hconv a b hab
  · simp only [retrieve_relevant_lessons]
    by_cases hlt : (dbSelectPass (min max_lessons 7) []
        (rankedCandidates rows task task_type now)).length < min max_lessons 7
    · rw [if_pos hlt]
      constructor
      · refine le_trans (dbFillPass_length (min max_lessons 7) _ _ (le_of_lt hlt)) ?_
        exact min_le_right _ _
      · refine List.Pairwise.imp ?_ (dbFillPass_pairwise _ _ _
          (dbSelectPass_pairwise _ _ _ List.Pairwise.nil))
        intro a b hab
        exact hconv a b hab
    · rw [if_neg hlt]
      constructor
      · refine le_trans (dbSelectPass_length (min max_lessons 7) _ _ (by simp)) ?_
        exact min_le_right _ _
      · refine List.Pairwise.imp ?_ (dbSelectPass_pairwise _ _ _ List.Pairwise.nil)
        intro a b hab
        exact hconv a b hab

-- ── C10 ──────────────────────────────────────────────────────────────

/-- Greedy dedup only ever appends to its accumulator. -/
theorem greedyDedup_extends : ∀ (rest : List (TaskLesson × ℚ)) (kept : List TaskLesson),
    kept <+: greedyDedup kept rest := by
  intro rest
  induction rest with
  | nil =>
    intro kept
    exact List.prefix_rfl
  | cons p rest ih =>
    intro kept
    rcases p with ⟨lesson, r⟩
    simp only [greedyDedup]
    by_cases hd : kept.any (fun s => near_duplicate s lesson) = true
    · rw [if_pos hd]
      exact ih kept
    · rw [if_neg hd]
      exact List.IsPrefix.trans (List.prefix_append kept [lesson]) (ih (kept ++ [lesson]))

/-- The first selection pass produces a prefix of the greedy dedup of the
same ranked list: its skip condition is the dedup condition, and its two
break conditions only cut the walk short. -/
theorem dbSelectPass_prefix (target : Nat) : ∀ (rest : List (TaskLesson × ℚ))
    (sel : List TaskLesson), dbSelectPass target sel rest <+: greedyDedup sel rest := by
  intro rest
  induction rest with
  | nil =>
    intro sel
    exact List.prefix_rfl
  | cons p rest ih =>
    intro sel
    rcases p with ⟨lesson, r⟩
    simp only [dbSelectPass]
    by_cases h1 : sel.length ≥ target
    · rw [if_pos h1]
      exact greedyDedup_extends _ sel
    · rw [if_neg h1]
      by_cases h2 : sel.length ≥ 3 ∧ r < 0.22
      · rw [if_pos h2]
        exact greedyDedup_extends _ sel
      · rw [if_neg h2]
        by_cases hd : sel.any (fun s => near_duplicate s lesson) = true
        · rw [if_pos hd]
          have hstep : greedyDedup sel ((lesson, r) :: rest) = greedyDedup sel rest := by
            simp only [greedyDedup]
            rw [if_pos hd]
          rw [hstep]
          exact ih sel
        · rw [if_neg hd]
          have hstep : greedyDedup sel ((lesson, r) :: rest)
              = greedyDedup (sel ++ [lesson]) rest := by
            simp only [greedyDedup]
            rw [if_neg hd]
          rw [hstep]
          exact ih (sel ++ [lesson])

/-- A prefix no longer than `m` is also a prefix of the first `m`
elements. -/
theorem prefix_take_of_le {l G : List TaskLesson} {m : Nat}
    (h : l <+: G) (hm : l.length ≤ m) : l <+: G.take m := by
  rw [List.prefix_iff_eq_take] at h ⊢
  rw [List.take_take, min_eq_left hm]
  exact h

/-- Core of the retrieval-count analysis: starting from any prefix of the
greedy-dedup survivor list `G` (of length `m ≤ target`), the fallback
fill pass extends it to exactly the first `min target G.length` survivors
— provided every listed lesson is a near-duplicate of itself, so that
already-selected lessons are skipped when revisited. -/
theorem dbFillPass_exact (target : Nat) :
    ∀ (rest : List (TaskLesson × ℚ)) (dacc : List TaskLesson) (m : Nat)
      (G : List TaskLesson),
      (∀ x ∈ rest, near_duplicate x.1 x.1 = true) →
      greedyDedup dacc rest = G →
      dacc <+: G →
      dacc.length ≤ m → m ≤ G.length → m ≤ target →
      dbFillPass target (G.take m) rest = G.take (min target G.length) := by
  intro rest
  induction rest with
  | nil =>
    intro dacc m G hrefl hG hpre hdm hmG hmt
    have hGd : G = dacc := by
      rw [← hG]
      rfl
    have hlen : dacc.length = G.length := by rw [hGd]
    have hm : m = G.length := le_antisymm hmG (hlen ▸ hdm)
    have hmin : min target G.length = G.length := min_eq_right (hm ▸ hmt)
    simp only [dbFillPass]
    rw [hm, List.take_length, hmin, List.take_length]
  | cons p rest ih =>
    intro dacc m G hrefl hG hpre hdm hmG hmt
    rcases p with ⟨lesson, r⟩
    have hrefl2 : ∀ x ∈ rest, near_duplicate x.1 x.1 = true :=
      fun x hx => hrefl x (List.mem_cons_of_mem _ hx)
    have hlesson_refl : near_duplicate lesson lesson = true :=
      hrefl (lesson, r) (List.mem_cons_self _ _)
    simp only [dbFillPass]
    have htakelen : (G.take m).length = m := by
      rw [List.length_take]
      exact min_eq_left hmG
    by_cases hcap : (G.take m).length ≥ target
    · rw [if_pos hcap]
      rw [htakelen] at hcap
      have hm2 : m = target := le_antisymm hmt hcap
      have hmin : min target G.length = target := min_eq_left (hm2 ▸ hmG)
      rw [hmin, hm2]
    · rw [if_neg hcap]
      rw [htakelen] at hcap
      have hmlt : m < target := Nat.lt_of_not_le hcap
      by_cases hd : dacc.any (fun s => near_duplicate s lesson) = true
      · have hstep : greedyDedup dacc ((lesson, r) :: rest) = greedyDedup dacc rest := by
          simp only [greedyDedup]
          rw [if_pos hd]
        rw [hstep] at hG
        have hsub : dacc <+: G.take m := prefix_take_of_le hpre hdm
        have hany : (G.take m).any (fun s => near_duplicate s lesson) = true := by
          rw [List.any_eq_true] at hd ⊢
          obtain ⟨s, hs, hnd⟩ := hd
          exact ⟨s, hsub.subset hs, hnd⟩
        rw [if_pos hany]
        exact ih dacc m G hrefl2 hG hpre hdm hmG hmt
      · have hstep : greedyDedup dacc ((lesson, r) :: rest)
            = greedyDedup (dacc ++ [lesson]) rest := by
          simp only [greedyDedup]
          rw [if_neg hd]
        rw [hstep] at hG
        have hpre2 : dacc ++ [lesson] <+: G := by
          rw [← hG]
          exact greedyDedup_extends rest (dacc ++ [lesson])
        have hlen2 : (dacc ++ [lesson]).length = dacc.length + 1 := by
          simp
        by_cases hdm2 : dacc.length < m
        · have hsub2 : dacc ++ [lesson] <+: G.take m :=
            prefix_take_of_le hpre2 (by rw [hlen2]; omega)
          have hmem : lesson ∈ G.take m := hsub2.subset (by simp)
          have hany : (G.take m).any (fun s => near_duplicate s lesson) = true := by
            rw [List.any_eq_true]
            exact ⟨lesson, hmem, hlesson_refl⟩
          rw [if_pos hany]
          exact ih (dacc ++ [lesson]) m G hrefl2 hG hpre2 (by rw [hlen2]; omega) hmG hmt
        · have hdm3 : dacc.length = m := le_antisymm hdm (not_lt.mp hdm2)
          have hdacc_take : dacc = G.take m := by
            have h2 := List.prefix_iff_eq_take.mp hpre
            rw [hdm3] at h2
            exact h2
          have hany : ¬ ((G.take m).any (fun s => near_duplicate s lesson) = true) := by
            rw [← hdacc_take]
            exact hd
          rw [if_neg hany]
          have htake1 : G.take m ++ [lesson] = G.take (m + 1) := by
            have h1 := List.prefix_iff_eq_take.mp hpre2
            rw [hlen2, hdm3] at h1
            rw [← hdacc_take]
            exact h1
          rw [htake1]
          have hm1G : m + 1 ≤ G.length := by
            have h3 := hpre2.length_le
            rw [hlen2, hdm3] at h3
            exact h3
          exact ih (dacc ++ [lesson]) (m + 1) G hrefl2 hG hpre2
            (by rw [hlen2, hdm3]) hm1G (by omega)

/-- Every ranked candidate comes from the corpus. -/
theorem rankedCandidates_fst_mem (rows : List TaskLesson) (task task_type : RStr)
    (now : Nat) (x : TaskLesson × ℚ)
    (hx : x ∈ rankedCandidates rows task task_type now) : x.1 ∈ rows := by
  unfold rankedCandidates at hx
  have hx2 : x ∈ (recencyWindow rows).map
      (fun l => (l, lesson_rank l (tokenize task) task_type now)) :=
    (List.mergeSort_perm _ _).mem_iff.mp hx
  obtain ⟨l, hl, hlx⟩ := List.mem_map.mp hx2
  have hl2 : l ∈ rows.mergeSort (fun a b => b.created_at ≤ a.created_at) :=
    List.mem_of_mem_take hl
  have hl3 : l ∈ rows := (List.mergeSort_perm _ _).mem_iff.mp hl2
  rw [← hlx]
  exact hl3

/-- C10 (amended): when every corpus lesson is a near-duplicate of itself
(its goal+approach produces at least one token), database-level retrieval
returns exactly `min (min max_lessons 7) d` lessons, where `d` is the
number of survivors of greedy near-duplicate filtering over the full
ranked candidate list; in particular the 0.22 quality floor never reduces
the count, the fallback fill pass running whenever the first pass
selected fewer than the target. -/
theorem C10_db_retrieval_count_amended (rows : List TaskLesson)
    (task task_type : RStr) (max_lessons now : Nat)
    (hrefl : ∀ l ∈ rows, near_duplicate l l = true) :
    (retrieve_relevant_lessons rows task task_type max_lessons now).length
      = min (min max_lessons 7)
          (greedyDedup [] (rankedCandidates rows task task_type now)).length := by
  simp only [retrieve_relevant_lessons]
  have hrefl2 : ∀ x ∈ rankedCandidates rows task task_type now,
      near_duplicate x.1 x.1 = true :=
    fun x hx => hrefl x.1 (rankedCandidates_fst_mem rows task task_type now x hx)
  have hsel_pre : dbSelectPass (min max_lessons 7) []
        (rankedCandidates rows task task_type now)
      <+: greedyDedup [] (rankedCandidates rows task task_type now) :=
    dbSelectPass_prefix (min max_lessons 7) (rankedCandidates rows task task_type now) []
  have hsel_len : (dbSelectPass (min max_lessons 7) []
        (rankedCandidates rows task task_type now)).length ≤ min max_lessons 7 :=
    dbSelectPass_length (min max_lessons 7) (rankedCandidates rows task task_type now) []
      (by simp)
  by_cases hlt : (dbSelectPass (min max_lessons 7) []
      (rankedCandidates rows task task_type now)).length < min max_lessons 7
  · rw [if_pos hlt]
    have hk := List.prefix_iff_eq_take.mp hsel_pre
    rw [hk]
    rw [dbFillPass_exact (min max_lessons 7) (rankedCandidates rows task task_type now)
      [] _ _ hrefl2 rfl List.nil_prefix (Nat.zero_le _) hsel_pre.length_le
      (le_of_lt hlt)]
    rw [List.length_take, min_assoc, min_self]
  · rw [if_neg hlt]
    have hk : (dbSelectPass (min max_lessons 7) []
        (rankedCandidates rows task task_type now)).length = min max_lessons 7 :=
      le_antisymm hsel_len (not_lt.mp hlt)
    rw [hk]
    exact (min_eq_left (hk ▸ hsel_pre.length_le)).symm

/-- Goal+approach of `xLesson` tokenizes to nothing (every piece is
shorter than 3 bytes). -/
theorem xLesson_tokens_nil : tokenize (joinSp xLesson.goal xLesson.approach) = [] := by
  decide

/-- `xLesson` is not a near-duplicate of itself: the empty-token guard
makes its self-Jaccard 0. -/
theorem near_duplicate_xLesson : near_duplicate xLesson xLesson = false := by
  unfold near_duplicate
  rw [if_neg (not_not_intro rfl)]
  show decide (jaccard (tokenize (joinSp xLesson.goal xLesson.approach))
      (tokenize (joinSp xLesson.goal xLesson.approach)) ≥ 0.82) = false
  rw [xLesson_tokens_nil]
  apply decide_eq_false
  rw [show jaccard [] [] = 0 from rfl]
  norm_num

/-- First pass on the one-lesson ranked list selects the lesson. -/
theorem dbSelectPass_xLesson (r : ℚ) :
    dbSelectPass (min 7 7) [] [(xLesson, r)] = [xLesson] := by
  simp only [dbSelectPass]
  rw [if_neg (by decide : ¬ (([] : List TaskLesson).length ≥ min 7 7))]
  rw [if_neg (fun h => absurd h.1 (by decide))]
  rw [if_neg (by simp : ¬ (([] : List TaskLesson).any
    (fun s => near_duplicate s xLesson) = true))]
  rfl

/-- Greedy dedup of the one-lesson ranked list keeps the lesson once. -/
theorem greedyDedup_xLesson (r : ℚ) :
    greedyDedup [] [(xLesson, r)] = [xLesson] := by
  simp only [greedyDedup]
  rw [if_neg (by simp : ¬ (([] : List TaskLesson).any
    (fun s => near_duplicate s xLesson) = true))]
  rfl

/-- The fallback pass re-adds `xLesson` although it is already selected,
because it is not a near-duplicate of itself. -/
theorem dbFillPass_xLesson (r : ℚ) :
    dbFillPass (min 7 7) [xLesson] [(xLesson, r)] = [xLesson, xLesson] := by
  simp only [dbFillPass]
  rw [if_neg (by decide : ¬ ([xLesson].length ≥ min 7 7))]
  rw [if_neg (by simp [near_duplicate_xLesson] : ¬ ([xLesson].any
    (fun s => near_duplicate s xLesson) = true))]
  rfl

/-- Counterexample for C10 as stated: a single lesson whose goal and
approach have no 3-byte token is not a near-duplicate of itself, so the
fallback pass re-adds it and retrieval returns 2 lessons while
`min (min 7 7) d = 1`. -/
theorem C10_counterexample :
    (retrieve_relevant_lessons [xLesson] (("task").data) (("general").data) 7 0).length = 2
    ∧ (greedyDedup [] (rankedCandidates [xLesson] (("task").data) (("general").data) 0)).length
        = 1
    ∧ (retrieve_relevant_lessons [xLesson] (("task").data) (("general").data) 7 0).length
        ≠ min (min 7 7)
            (greedyDedup [] (rankedCandidates [xLesson] (("task").data) (("general").data) 0)).length := by
  have hrk : rankedCandidates [xLesson] (("task").data) (("general").data) 0
      = [(xLesson, lesson_rank xLesson (tokenize (("task").data)) (("general").data) 0)] := by
    simp only [rankedCandidates, recencyWindow]
    rw [List.mergeSort_singleton, List.take_of_length_le (by decide),
      List.map_singleton, List.mergeSort_singleton]
  refine ⟨?_, ?_, ?_⟩
  · simp only [retrieve_relevant_lessons, hrk]
    rw [dbSelectPass_xLesson]
    rw [if_pos (by decide : [xLesson].length < min 7 7)]
    rw [dbFillPass_xLesson]
    rfl
  · rw [hrk, greedyDedup_xLesson]
    rfl
  · simp only [retrieve_relevant_lessons, hrk]
    rw [dbSelectPass_xLesson]
    rw [if_pos (by decide : [xLesson].length < min 7 7)]
    rw [dbFillPass_xLesson, greedyDedup_xLesson]
    decide

/-- Self-Jaccard of a non-empty token list is 1. -/
theorem jaccard_self (a : List RStr) (h : a ≠ []) : jaccard a a = 1 := by
  have hie : a.isEmpty = false := by
    cases a with
    | nil => exact absurd rfl h
    | cons x t => rfl
  simp only [jaccard, hie, Bool.or_self, Bool.false_eq_true, if_false]
  rw [Finset.inter_self, Finset.union_self]
  have hcard : a.toFinset.card ≠ 0 := by
    rw [Ne, Finset.card_eq_zero, List.toFinset_eq_empty_iff]
    exact h
  rw [if_neg (by exact_mod_cast hcard : ¬ ((a.toFinset.card : ℚ) = 0))]
  exact div_self (by exact_mod_cast hcard)

/-- `wLesson` is a near-duplicate of itself (its goal+approach has
tokens). -/
theorem near_duplicate_wLesson : near_duplicate wLesson wLesson = true := by
  unfold near_duplicate
  rw [if_neg (not_not_intro rfl)]
  show decide (jaccard (tokenize (joinSp wLesson.goal wLesson.approach))
      (tokenize (joinSp wLesson.goal wLesson.approach)) ≥ 0.82) = true
  apply decide_eq_true
  rw [jaccard_self _ (by decide)]
  norm_num

/-- Witness for C10's amended statement on a well-tokenized one-lesson
corpus. -/
theorem C10_db_retrieval_count_amended_witness :
    (∀ l ∈ [wLesson], near_duplicate l l = true)
    ∧ (retrieve_relevant_lessons [wLesson] (("task").data) (("debug").data) 7 0).length
        = min (min 7 7)
            (greedyDedup [] (rankedCandidates [wLesson] (("task").data) (("debug").data) 0)).length :=
  ⟨fun l hl => (List.mem_singleton.mp hl) ▸ near_duplicate_wLesson,
    C10_db_retrieval_count_amended [wLesson] (("task").data) (("debug").data) 7 0
      (fun l hl => (List.mem_singleton.mp hl) ▸ near_duplicate_wLesson)⟩
